import Mathlib

/-!
# Verification of the vero-backend ingestion ledger and reconciliation logic

Shallow embedding of the deduplication-aware ingestion pipeline of the
`vero-backend` repository, together with proofs about the properties its
specification states.

The embedding covers:
* `loader/pdf_processor.py` — `PDFProcessor`: the ingestion reconciler backed
  by two Chroma collections (`pdf_embeddings` for vectors, `pdf_metadata` as
  the processing ledger);
* `loader/db_manager.py` — `DatabaseManager` and the `ProcessedFile` ledger
  table;
* `api/main.py` — the `internal_search` endpoint;
* `mcp/mcp_server.py` — the `search_documents` tool.

External collaborators (SHA-256, PDF text extraction + embedding, the ANN
search of the vector store, Unicode normalization) are parameters of the
embedded functions; everything the repository itself implements is embedded
executably.
-/

namespace Vero

/-- File contents as a byte sequence (each entry `< 256`; the bound is
irrelevant to the properties proved here). -/
abbrev Bytes := List Nat

/-! ## `loader/pdf_processor.py` — the reconciler and its Chroma-backed ledger -/

/-- The metadata dictionary built by `PDFProcessor._get_file_metadata`:
`{"file_path": ..., "file_name": ..., "content_hash": ...}`. -/
structure ChromaMeta where
  file_path : String
  file_name : String
  content_hash : String
deriving DecidableEq, Repr

/-- One entry of the Chroma `pdf_metadata` collection: a record id together
with its metadata dictionary. -/
structure MetaEntry where
  id : String
  metadata : ChromaMeta
deriving DecidableEq, Repr

/-- One chunk stored in the Chroma `pdf_embeddings` collection: the text with
the metadata `process_pdf` attaches (`content_hash`, plus the file path the
reader records). The embedding vector itself lives in the external store and
plays no role in the reconciliation logic. -/
structure EmbeddedChunk where
  text : String
  content_hash : String
  file_path : String
deriving DecidableEq, Repr

/-- The state a `PDFProcessor` instance mutates: the contents of its two
Chroma collections, in insertion order. -/
structure PState where
  embeddings : List EmbeddedChunk
  metadata : List MetaEntry
deriving DecidableEq, Repr

/-- Python `str.lower()` on the characters of the string. -/
def pyLower (s : String) : String :=
  ⟨s.data.map Char.toLower⟩

/-- Python `str.endswith(suffix)` on the characters of the string. -/
def pyEndsWith (s suffix : String) : Bool :=
  suffix.data.isSuffixOf s.data

/-- Python `os.path.basename`: the part of the path after its last `/`. -/
def basename (p : String) : String :=
  ⟨p.data.foldl (fun acc c => if c = '/' then [] else acc ++ [c]) []⟩

/-- Source `PDFProcessor._get_file_metadata`: the metadata dictionary for a file,
with `h` standing for SHA-256 on the file's bytes. -/
def _get_file_metadata (h : Bytes → String) (file_path : String)
    (content : Bytes) : ChromaMeta :=
  ⟨file_path, basename file_path, h content⟩

/-- Source `PDFProcessor._check_duplicate`: query the `pdf_metadata` collection for
entries whose `file_path` matches, and return the first id if any. -/
def _check_duplicate (s : PState) (file_path : String) : Option String :=
  ((s.metadata.filter (fun e => e.metadata.file_path == file_path)).map
    (fun e => e.id)).head?

/-- Chroma `metadata_collection.get(ids=[id])`: the first entry carrying the id. -/
def getById (s : PState) (id : String) : Option MetaEntry :=
  (s.metadata.filter (fun e => e.id == id)).head?

/-- Source `PDFProcessor._store_metadata`: add a metadata record under the id
`meta_{content_hash}` and return the id. -/
def _store_metadata (s : PState) (m : ChromaMeta) : PState × String :=
  let metadata_id := "meta_" ++ m.content_hash
  ({ s with metadata := s.metadata ++ [⟨metadata_id, m⟩] }, metadata_id)

/-- Source `PDFProcessor._delete_old_embeddings`: look the metadata record up by id,
and delete every chunk of `pdf_embeddings` carrying its `content_hash`. -/
def _delete_old_embeddings (s : PState) (metadata_id : String) : PState :=
  match getById s metadata_id with
  | some e =>
    { s with
      embeddings :=
        s.embeddings.filter
          (fun c => !(c.content_hash == e.metadata.content_hash)) }
  | none => s

/-- The outcome of one `process_pdf` call, as distinguished by the branch the
code takes (and reports by its log line). -/
inductive Outcome where
  | Inserted
  | Skipped
  | Replaced
deriving DecidableEq, Repr

/-- The exceptions `process_pdf` raises: `FileNotFoundError` for a missing
input, `ValueError` for a non-`.pdf` name, and any failure propagated from
the external extraction/embedding step. -/
inductive PdfError where
  | notFound (p : String)
  | unsupportedFormat (p : String)
  | extractionFailed (p : String)
deriving DecidableEq, Repr

/-- Observable side effects on the two Chroma collections, in the order the
code performs them. -/
inductive Event where
  | deleteChunks (content_hash : String)
  | insertChunks (content_hash : String) (n : Nat)
  | addMetadata (id : String)
deriving DecidableEq, Repr

deriving instance DecidableEq for Except

/-- The result of one `process_pdf` call: the outcome or the exception raised,
the post-state of the two collections (mutations made before an exception
persist), and the trace of collection mutations performed. -/
structure RunResult where
  result : Except PdfError Outcome
  state : PState
  trace : List Event
deriving DecidableEq, Repr

/-- The tail of `process_pdf` shared by the INSERT and REPLACE branches: load
the PDF (external; `none` models a raised exception), tag every document with
the content hash, store the embeddings, then store the metadata record. -/
def ingest_and_record (extract : String → Option (List String)) (s : PState)
    (ev : List Event) (pdf_path : String) (meta : ChromaMeta)
    (out : Outcome) : RunResult :=
  match extract pdf_path with
  | none => ⟨.error (.extractionFailed pdf_path), s, ev⟩
  | some texts =>
    let newChunks := texts.map
      (fun t => (⟨t, meta.content_hash, pdf_path⟩ : EmbeddedChunk))
    let s1 : PState := { s with embeddings := s.embeddings ++ newChunks }
    let s2 := (_store_metadata s1 meta).1
    ⟨.ok out, s2,
      ev ++ [.insertChunks meta.content_hash newChunks.length,
             .addMetadata (_store_metadata s1 meta).2]⟩

/-- Source `PDFProcessor.process_pdf`. Parameters stand for the external
collaborators: `h` is SHA-256 on the file bytes, `extract` is the
`SimpleDirectoryReader` + embedding step (`none` = raised exception), `fs`
maps a path to its readable content (`none` = `os.path.exists` false). -/
def process_pdf (h : Bytes → String) (extract : String → Option (List String))
    (fs : String → Option Bytes) (s : PState) (pdf_path : String) :
    RunResult :=
  match fs pdf_path with
  | none => ⟨.error (.notFound pdf_path), s, []⟩
  | some content =>
    if pyEndsWith (pyLower pdf_path) ".pdf" then
      match _check_duplicate s pdf_path with
      | some existing_id =>
        match getById s existing_id with
        | some em =>
          if em.metadata.content_hash
              == (_get_file_metadata h pdf_path content).content_hash then
            ⟨.ok .Skipped, s, []⟩
          else
            ingest_and_record extract (_delete_old_embeddings s existing_id)
              [.deleteChunks em.metadata.content_hash] pdf_path
              (_get_file_metadata h pdf_path content) .Replaced
        | none =>
          ingest_and_record extract s [] pdf_path
            (_get_file_metadata h pdf_path content) .Inserted
      | none =>
        ingest_and_record extract s [] pdf_path
          (_get_file_metadata h pdf_path content) .Inserted
    else
      ⟨.error (.unsupportedFormat pdf_path), s, []⟩

/-! ## `loader/db_manager.py` — the durable `processed_files` ledger -/

/-- The `ProcessedFile` SQLAlchemy model: one row of the `processed_files`
table, primary key `file_path`. Timestamps are abstracted to `Nat`. -/
structure ProcessedFile where
  file_path : String
  folder_id : String
  content_hash : String
  processed_at : Nat
  is_processed : Bool
deriving DecidableEq, Repr

/-- The `processed_files` table contents. -/
abbrev DB := List ProcessedFile

/-- Source `DatabaseManager.is_file_processed`: `query(...).filter_by(content_hash
=...).first()` is truthy exactly when some row carries the hash. -/
def is_file_processed (db : DB) (content_hash : String) : Bool :=
  match db.find? (fun r => r.content_hash == content_hash) with
  | some _ => true
  | none => false

/-- Update the first row satisfying `p` in place (SQLAlchemy mutates the row
returned by `.first()`). -/
def updateFirst (p : ProcessedFile → Bool)
    (f : ProcessedFile → ProcessedFile) : DB → DB
  | [] => []
  | r :: rs => if p r then f r :: rs else r :: updateFirst p f rs

/-- Source `DatabaseManager.mark_file_processed` with an explicit `content_hash`
(the code only computes it from the file when the caller passes `None`) and
`now` standing for `datetime.utcnow()`: update the existing row for
`file_path` if there is one, otherwise insert a fresh row. -/
def mark_file_processed (db : DB) (file_path folder_id content_hash : String)
    (now : Nat) : DB :=
  if db.any (fun r => r.file_path == file_path) then
    updateFirst (fun r => r.file_path == file_path)
      (fun r =>
        { r with
          folder_id := folder_id
          content_hash := content_hash
          processed_at := now
          is_processed := true }) db
  else
    db ++ [⟨file_path, folder_id, content_hash, now, true⟩]

/-- Source `DatabaseManager.get_processed_files`: all rows, filtered by `folder_id`
when one is given (`if folder_id:` — the empty string is falsy and disables
the filter, like `None`). -/
def get_processed_files (db : DB) (folder_id : Option String) : DB :=
  match folder_id with
  | some fid => if fid == "" then db else db.filter (fun r => r.folder_id == fid)
  | none => db

/-- The specification's `get(identity)`, realized through the source's
`get_processed_files`: the row of the ledger whose `file_path` is the
identity. -/
def ledger_get (db : DB) (identity : String) : Option ProcessedFile :=
  (get_processed_files db none).find? (fun r => r.file_path == identity)

/-! ## The content hasher (`calculate_file_hash` in both loader modules) -/

/-- A file as the hasher sees it: name, path and access time are present but
must not influence the fingerprint. -/
structure File where
  name : String
  path : String
  atime : Nat
  content : Bytes
deriving DecidableEq, Repr

/-- The 4096-byte blocks `iter(lambda: f.read(4096), b"")` yields. -/
def blocks4096 : Bytes → List Bytes
  | [] => []
  | b :: bs => ((b :: bs).take 4096) :: blocks4096 ((b :: bs).drop 4096)
termination_by l => l.length
decreasing_by
  simp only [List.length_drop, List.length_cons]
  omega

/-- Source `calculate_file_hash`: stream the content in 4096-byte blocks through the
digest (`sha` stands for SHA-256; feeding it block by block digests the
concatenation of the blocks) and return the hex digest. -/
def calculate_file_hash (sha : Bytes → String) (f : File) : String :=
  sha (List.flatten (blocks4096 f.content))

/-! ## `api/main.py` — the `internal_search` endpoint -/

/-- The `SearchQuery` pydantic model: a string query and an integer `top_k`
(default 3). The model declares no constraint on `top_k`. -/
structure SearchQuery where
  query : String
  top_k : Int
deriving DecidableEq, Repr

/-- A source node returned by the external retriever: text plus optional
`source` / `file_name` metadata. -/
structure Node where
  text : String
  source : Option String
  file_name : Option String
deriving DecidableEq, Repr

/-- The `Chunk` response model of the API. -/
structure Chunk where
  text : String
  source : String
  file_name : String
deriving DecidableEq, Repr

/-- Failures the endpoint can produce: a pydantic request-validation error
(HTTP 422, the shape an `InvalidArgument` rejection would take) or the
`HTTPException` the handler raises. -/
inductive ApiError where
  | validationError (detail : String)
  | httpException (status : Nat) (detail : String)
deriving DecidableEq, Repr

/-- Request validation as `SearchQuery` declares it: the fields are typed but
`top_k` carries no bound, so every integer is accepted. -/
def validate_search_query (query : String) (top_k : Int) :
    Except ApiError SearchQuery :=
  Except.ok ⟨query, top_k⟩

/-- The body of `internal_search`: run the external retriever
(`index.as_retriever(similarity_top_k=top_k).retrieve(query)`; an `Except`
error models a raised exception), normalize each node's text (`nfkc` stands
for `unicodedata.normalize('NFKC', ·)`), and map any exception to the
generic 500 `HTTPException` of the `except` block. -/
def internal_search (nfkc : String → String)
    (retrieve : String → Int → Except String (List Node))
    (sq : SearchQuery) : Except ApiError (List Chunk) :=
  match retrieve sq.query sq.top_k with
  | .ok nodes =>
    .ok (nodes.map (fun n =>
      ⟨nfkc n.text, n.source.getD "Unknown", n.file_name.getD "Unknown"⟩))
  | .error e =>
    .error (.httpException 500
      ("An error occurred while searching documents: " ++ e))

/-- The full request path of `POST /internal_search`: pydantic validation of
the body, then the handler. -/
def handle_internal_search (nfkc : String → String)
    (retrieve : String → Int → Except String (List Node))
    (query : String) (top_k : Int) : Except ApiError (List Chunk) :=
  match validate_search_query query top_k with
  | .error e => .error e
  | .ok sq => internal_search nfkc retrieve sq

/-- Whether an endpoint result is an `InvalidArgument`-style rejection. -/
def isInvalidArgument : Except ApiError (List Chunk) → Bool
  | .error (.validationError _) => true
  | _ => false

/-! ## Collection wiring across components (for the retrieval/ingestion split) -/

/-- The collection `PDFProcessor._setup_vector_store` writes embeddings to. -/
def loader_embeddings_collection : String := "pdf_embeddings"

/-- The collection `PDFProcessor._setup_vector_store` keeps its ledger in. -/
def loader_metadata_collection : String := "pdf_metadata"

/-- The collection `api/main.py` binds its vector store to. -/
def api_embeddings_collection : String := "embeddings"

/-- The collection `mcp/mcp_server.py` binds its vector store to. -/
def mcp_embeddings_collection : String := "embeddings"

/-- The whole Chroma database: every named chunk collection and every named
metadata collection. -/
structure VectorDB where
  chunks : String → List EmbeddedChunk
  metas : String → List MetaEntry

/-- The two collections the loader's `PDFProcessor` instance operates on. -/
def loaderView (db : VectorDB) : PState :=
  ⟨db.chunks loader_embeddings_collection, db.metas loader_metadata_collection⟩

/-- Write the loader's post-state back into its two named collections; no
other collection is touched. -/
def applyLoader (db : VectorDB) (s : PState) : VectorDB :=
  ⟨fun n => if n = loader_embeddings_collection then s.embeddings else db.chunks n,
   fun n => if n = loader_metadata_collection then s.metadata else db.metas n⟩

/-- Function `process_pdf` acting on the whole named-collection database. -/
def process_pdf_sys (h : Bytes → String)
    (extract : String → Option (List String)) (fs : String → Option Bytes)
    (db : VectorDB) (pdf_path : String) : Except PdfError Outcome × VectorDB :=
  let r := process_pdf h extract fs (loaderView db) pdf_path
  (r.result, applyLoader db r.state)

/-- The chunks `internal_search` draws its results from: the external
similarity search `sel` applied to the collection `api/main.py` is bound to. -/
def api_search (sel : List EmbeddedChunk → String → Int → List EmbeddedChunk)
    (db : VectorDB) (query : String) (top_k : Int) : List EmbeddedChunk :=
  sel (db.chunks api_embeddings_collection) query top_k

/-- The chunks the MCP `search_documents` tool draws its results from. -/
def mcp_search_documents
    (sel : List EmbeddedChunk → String → Int → List EmbeddedChunk)
    (db : VectorDB) (query : String) (n_results : Int) : List EmbeddedChunk :=
  sel (db.chunks mcp_embeddings_collection) query n_results

/-! ## Concrete instances used by counterexamples, bug evaluations, witnesses -/

/-- A concrete stand-in for SHA-256, injective on the byte lists used below. -/
def hC : Bytes → String :=
  fun b => toString (b.foldl (fun a x => a * 256 + x) 0)

/-- A concrete extractor producing one text chunk for every input. -/
def extractC : String → Option (List String) := fun _ => some ["chunk one"]

/-- An extractor whose extraction/embedding step always raises. -/
def extractFail : String → Option (List String) := fun _ => none

/-- A filesystem holding `a.pdf` with content `[1]`. -/
def fsA : String → Option Bytes :=
  fun p => if p = "a.pdf" then some [1] else none

/-- The same filesystem after `a.pdf`'s content changed to `[2]`. -/
def fsB : String → Option Bytes :=
  fun p => if p = "a.pdf" then some [2] else none

/-- A filesystem holding a single non-PDF file `notes.txt`. -/
def fsT : String → Option Bytes :=
  fun p => if p = "notes.txt" then some [7] else none

/-- The empty processor state (fresh collections). -/
def s0 : PState := ⟨[], []⟩

/-- First ingestion of `a.pdf` (content `[1]`, fingerprint `"1"`). -/
def runA : RunResult := process_pdf hC extractC fsA s0 "a.pdf"

/-- Re-ingestion of `a.pdf` after its content changed to `[2]`
(fingerprint `"2"`). -/
def runB : RunResult := process_pdf hC extractC fsB runA.state "a.pdf"

/-- A retriever standing for the external ANN search raising on an invalid
`n_results`, as the Chroma backend does for a non-positive count. -/
def retrieveErr : String → Int → Except String (List Node) :=
  fun _ _ => Except.error "Number of requested results 0 is invalid"

/-! ## Theorems -/

/-- C1: reconciling identity `a.pdf` first with content `[1]` (fingerprint
`"1"`) and then with content `[2]` (fingerprint `"2"`) does run the REPLACE
branch — the second call returns `Replaced`, afterwards no chunk carries the
old fingerprint and a nonzero chunk set carries the new one — but the ledger
(`pdf_metadata`) ends up with TWO records for the identity: the stale record
still carrying fingerprint `"1"` alongside the new record carrying `"2"`, so
the identity's ledger record does not (uniquely) carry the new fingerprint as
the claim states. -/
theorem c1_replace_leaves_stale_ledger_record :
    runB.result = Except.ok Outcome.Replaced ∧
    runB.state.embeddings.filter (fun c => c.content_hash == hC [1]) = [] ∧
    runB.state.embeddings.filter (fun c => c.content_hash == hC [2]) ≠ [] ∧
    (runB.state.metadata.filter
        (fun e => e.metadata.file_path == "a.pdf")).map
      (fun e => e.metadata.content_hash) = [hC [1], hC [2]] := by
  decide

/-- C4: after the reconcile sequence (`a.pdf`, content `[1]`) then (`a.pdf`,
content `[2]`), the `pdf_metadata` ledger of the reconciler holds two records
for the single identity `a.pdf`, violating the at-most-one-record-per-identity
invariant; the SQL ledger's `mark_file_processed`, by contrast, keeps a single
row under the same sequence of upserts. -/
theorem c4_identity_with_two_ledger_records :
    (runB.state.metadata.filter
      (fun e => e.metadata.file_path == "a.pdf")).length = 2 ∧
    mark_file_processed (mark_file_processed [] "a.pdf" "folder" "1" 0)
      "a.pdf" "folder" "2" 1 = [⟨"a.pdf", "folder", "2", 1, true⟩] := by
  decide

/-- The streamed 4096-byte blocks concatenate back to the original bytes. -/
theorem blocks4096_flatten (l : Bytes) : (blocks4096 l).flatten = l := by
  induction l using blocks4096.induct with
  | case1 => simp [blocks4096]
  | case2 b bs ih =>
    rw [blocks4096]
    simp only [List.flatten_cons, ih]
    exact List.take_append_drop _ _

/-- C5: the fingerprint of a file is the digest of exactly its byte sequence —
streaming in fixed 4096-byte blocks changes nothing — so two files with
identical content get identical fingerprints regardless of name, path or
access time. -/
theorem c5_hash_depends_only_on_content (sha : Bytes → String) (f g : File)
    (hfg : f.content = g.content) :
    calculate_file_hash sha f = calculate_file_hash sha g ∧
    calculate_file_hash sha f = sha f.content := by
  unfold calculate_file_hash
  rw [blocks4096_flatten, blocks4096_flatten, hfg]
  exact ⟨rfl, rfl⟩

/-- C5 witness: two concrete files sharing content `[1, 2, 3]` but differing
in name, path and access time hash identically, to the digest of the raw
content. -/
theorem c5_hash_witness :
    calculate_file_hash hC ⟨"a.pdf", "/x/a.pdf", 5, [1, 2, 3]⟩ =
      calculate_file_hash hC ⟨"b.pdf", "/y/b.pdf", 9, [1, 2, 3]⟩ ∧
    calculate_file_hash hC ⟨"a.pdf", "/x/a.pdf", 5, [1, 2, 3]⟩ =
      hC (File.content ⟨"a.pdf", "/x/a.pdf", 5, [1, 2, 3]⟩) :=
  c5_hash_depends_only_on_content hC ⟨"a.pdf", "/x/a.pdf", 5, [1, 2, 3]⟩
    ⟨"b.pdf", "/y/b.pdf", 9, [1, 2, 3]⟩ (by rfl)

/-- C6: `is_file_processed` answers true exactly when some row of the ledger
carries the fingerprint, whatever identity the row belongs to. -/
theorem c6_lookup_by_fingerprint_iff_some_record (db : DB)
    (content_hash : String) :
    is_file_processed db content_hash = true ↔
      ∃ r ∈ db, r.content_hash = content_hash := by
  unfold is_file_processed
  split
  next r hfind =>
    simp only [true_iff]
    refine ⟨r, List.mem_of_find?_eq_some hfind, ?_⟩
    have := List.find?_some hfind
    simpa using this
  next hfind =>
    simp only [Bool.false_eq_true, false_iff]
    rintro ⟨r, hr, hhash⟩
    have := List.find?_eq_none.mp hfind r hr
    simp [hhash] at this

/-- C8 counterexample: a search with `topK = 0` is not rejected by request
validation; the handler invokes the retriever, whose failure surfaces as the
generic 500 `HTTPException` — not as an `InvalidArgument`/422 rejection. -/
theorem c8_counterexample_topk_zero_reaches_search :
    handle_internal_search (fun t => t) retrieveErr "q" 0 =
      Except.error (ApiError.httpException 500
        ("An error occurred while searching documents: " ++
          "Number of requested results 0 is invalid")) ∧
    isInvalidArgument (handle_internal_search (fun t => t) retrieveErr "q" 0)
      = false := by
  decide

/-- C8 amended: for `topK ≤ 0` the endpoint performs no validation — the
query is handed unchanged to the retriever, and the outcome (the retriever's
results, or its failure mapped to a generic 500 error) is never an
`InvalidArgument` rejection. -/
theorem c8_amended_topk_nonpositive_not_validated (nfkc : String → String)
    (retrieve : String → Int → Except String (List Node))
    (q : String) (k : Int) (hk : k ≤ 0) :
    handle_internal_search nfkc retrieve q k
      = internal_search nfkc retrieve ⟨q, k⟩ ∧
    isInvalidArgument (handle_internal_search nfkc retrieve q k) = false := by
  refine ⟨rfl, ?_⟩
  cases hr : retrieve q k <;>
    simp [handle_internal_search, validate_search_query, internal_search,
      isInvalidArgument, hr]

/-- C8 amended witness: at `topK = 0` with the erroring retriever, the
endpoint's answer is the handler's (no validation rejection). -/
theorem c8_amended_witness :
    handle_internal_search (fun t => t) retrieveErr "q" 0
      = internal_search (fun t => t) retrieveErr ⟨"q", 0⟩ ∧
    isInvalidArgument (handle_internal_search (fun t => t) retrieveErr "q" 0)
      = false :=
  c8_amended_topk_nonpositive_not_validated (fun t => t) retrieveErr "q" 0
    (by decide)

/-- Function `mark_file_processed` walks past a row whose `file_path` differs. -/
theorem mark_file_processed_cons_of_ne (r : ProcessedFile) (rs : DB)
    (file_path folder_id content_hash : String) (now : Nat)
    (hne : (r.file_path == file_path) = false) :
    mark_file_processed (r :: rs) file_path folder_id content_hash now
      = r :: mark_file_processed rs file_path folder_id content_hash now := by
  unfold mark_file_processed
  simp only [List.any_cons, hne, Bool.false_or]
  by_cases hany : rs.any (fun x => x.file_path == file_path)
  · simp [hany, updateFirst, hne]
  · simp [hany, updateFirst, hne]

/-- Function `mark_file_processed` updates the head row in place when its `file_path`
matches. -/
theorem mark_file_processed_cons_of_eq (r : ProcessedFile) (rs : DB)
    (file_path folder_id content_hash : String) (now : Nat)
    (heq : (r.file_path == file_path) = true) :
    mark_file_processed (r :: rs) file_path folder_id content_hash now
      = { r with
          folder_id := folder_id
          content_hash := content_hash
          processed_at := now
          is_processed := true } :: rs := by
  unfold mark_file_processed
  simp [List.any_cons, heq, updateFirst]

/-- C7: upserting `(identity, folder, fingerprint, now)` and then reading the
identity back returns exactly the written record, and repeating the upsert
with identical arguments leaves the ledger unchanged — whether or not a row
for the identity existed before. -/
theorem c7_upsert_get_roundtrip_and_idempotent (db : DB)
    (file_path folder_id content_hash : String) (now : Nat) :
    ledger_get (mark_file_processed db file_path folder_id content_hash now)
        file_path
      = some ⟨file_path, folder_id, content_hash, now, true⟩ ∧
    mark_file_processed
        (mark_file_processed db file_path folder_id content_hash now)
        file_path folder_id content_hash now
      = mark_file_processed db file_path folder_id content_hash now := by
  induction db with
  | nil =>
    constructor
    · simp [mark_file_processed, ledger_get, get_processed_files]
    · simp [mark_file_processed, updateFirst]
  | cons r rs ih =>
    by_cases h : (r.file_path == file_path) = true
    · have hfp : r.file_path = file_path := by
        exact eq_of_beq h
      rw [mark_file_processed_cons_of_eq r rs _ _ _ _ h]
      constructor
      · simp [ledger_get, get_processed_files, List.find?_cons_of_pos, h, hfp]
      · rw [mark_file_processed_cons_of_eq _ _ _ _ _ _ (by simpa using h)]
    · have h' : (r.file_path == file_path) = false := by
        simpa using h
      rw [mark_file_processed_cons_of_ne r rs _ _ _ _ h']
      constructor
      · have := ih.1
        simpa [ledger_get, get_processed_files, List.find?_cons_of_neg, h']
          using this
      · rw [mark_file_processed_cons_of_ne _ _ _ _ _ _ h', ih.2]

/-- C9: a path with no readable file behind it raises `NotFound`, and an
existing file whose (lowercased) name does not end in `.pdf` raises
`UnsupportedFormat`; in both cases the call returns with the collections
untouched and an empty mutation trace — the checks precede every vector-store
and ledger mutation. -/
theorem c9_notfound_unsupported_before_mutation (h : Bytes → String)
    (extract : String → Option (List String)) (fs : String → Option Bytes)
    (s : PState) (p : String) :
    (fs p = none →
      process_pdf h extract fs s p = ⟨.error (.notFound p), s, []⟩) ∧
    (∀ content, fs p = some content →
      pyEndsWith (pyLower p) ".pdf" = false →
      process_pdf h extract fs s p = ⟨.error (.unsupportedFormat p), s, []⟩) := by
  constructor
  · intro hfs
    unfold process_pdf
    rw [hfs]
  · intro content hfs hpdf
    unfold process_pdf
    rw [hfs]
    simp [hpdf]

/-- C9 witness: the concrete missing path `missing.pdf` raises `NotFound`
and the concrete existing non-PDF `notes.txt` raises `UnsupportedFormat`,
both leaving the empty state and trace untouched. -/
theorem c9_witness :
    process_pdf hC extractC fsA s0 "missing.pdf"
      = ⟨.error (.notFound "missing.pdf"), s0, []⟩ ∧
    process_pdf hC extractC fsT s0 "notes.txt"
      = ⟨.error (.unsupportedFormat "notes.txt"), s0, []⟩ :=
  ⟨(c9_notfound_unsupported_before_mutation hC extractC fsA s0
      "missing.pdf").1 (by rfl),
   (c9_notfound_unsupported_before_mutation hC extractC fsT s0
      "notes.txt").2 [7] (by rfl) (by decide)⟩

/-- Function `_delete_old_embeddings` only filters the embeddings collection; the
metadata ledger is untouched. -/
theorem delete_old_embeddings_metadata_eq (s : PState) (metadata_id : String) :
    (_delete_old_embeddings s metadata_id).metadata = s.metadata := by
  unfold _delete_old_embeddings
  split <;> rfl

/-- A successful `ingest_and_record` appends exactly one chunk insertion and
then one ledger write to the prior trace. -/
theorem ingest_and_record_ok (extract : String → Option (List String))
    (s : PState) (ev : List Event) (p : String) (meta : ChromaMeta)
    (out out' : Outcome) (s' : PState) (tr : List Event)
    (hrun : ingest_and_record extract s ev p meta out = ⟨.ok out', s', tr⟩) :
    out' = out ∧
    ∃ n, tr = ev ++ [Event.insertChunks meta.content_hash n,
                     Event.addMetadata ("meta_" ++ meta.content_hash)] := by
  unfold ingest_and_record at hrun
  split at hrun
  · simp at hrun
  · next texts hext =>
    simp only [_store_metadata, RunResult.mk.injEq, Except.ok.injEq] at hrun
    obtain ⟨hout, -, htr⟩ := hrun
    exact ⟨hout.symm, texts.length, by simp [← htr]⟩

/-- A failing `ingest_and_record` leaves the state as given and appends no
event. -/
theorem ingest_and_record_error (extract : String → Option (List String))
    (s : PState) (ev : List Event) (p : String) (meta : ChromaMeta)
    (out : Outcome) (err : PdfError) (s' : PState) (tr : List Event)
    (hrun : ingest_and_record extract s ev p meta out
      = ⟨.error err, s', tr⟩) :
    s' = s ∧ tr = ev := by
  unfold ingest_and_record at hrun
  split at hrun
  · simp only [RunResult.mk.injEq] at hrun
    exact ⟨hrun.2.1.symm, hrun.2.2.symm⟩
  · simp at hrun

/-- C3: in every mutating reconcile (INSERT or REPLACE) the trace is some
chunk deletions, then the chunk insertion, then — last — the single ledger
write; and whenever the call raises (missing file, bad format, or a failing
vector-store/extraction step) the ledger collection is exactly as before and
no ledger-write event occurred. -/
theorem c3_vector_mutation_precedes_ledger_write (h : Bytes → String)
    (extract : String → Option (List String)) (fs : String → Option Bytes)
    (s : PState) (p : String) :
    (∀ out s' tr, process_pdf h extract fs s p = ⟨.ok out, s', tr⟩ →
      out ≠ Outcome.Skipped →
      ∃ dels fp n mid,
        tr = dels ++ [Event.insertChunks fp n, Event.addMetadata mid] ∧
        ∀ e ∈ dels, ∃ ch, e = Event.deleteChunks ch) ∧
    (∀ err s' tr, process_pdf h extract fs s p = ⟨.error err, s', tr⟩ →
      s'.metadata = s.metadata ∧ ∀ mid, Event.addMetadata mid ∉ tr) := by
  constructor
  · intro out s' tr hrun hskip
    unfold process_pdf at hrun
    split at hrun
    · simp at hrun
    · split at hrun
      · split at hrun
        · split at hrun
          · split at hrun
            · simp only [RunResult.mk.injEq, Except.ok.injEq] at hrun
              exact absurd hrun.1.symm hskip
            · obtain ⟨-, n, htr⟩ := ingest_and_record_ok _ _ _ _ _ _ _ _ _ hrun
              next em _ _ =>
                exact ⟨[Event.deleteChunks em.metadata.content_hash], _, n, _,
                  htr, by simp⟩
          · obtain ⟨-, n, htr⟩ := ingest_and_record_ok _ _ _ _ _ _ _ _ _ hrun
            exact ⟨[], _, n, _, htr, by simp⟩
        · obtain ⟨-, n, htr⟩ := ingest_and_record_ok _ _ _ _ _ _ _ _ _ hrun
          exact ⟨[], _, n, _, htr, by simp⟩
      · simp at hrun
  · intro err s' tr hrun
    unfold process_pdf at hrun
    split at hrun
    · simp only [RunResult.mk.injEq] at hrun
      refine ⟨by rw [← hrun.2.1], by simp [← hrun.2.2]⟩
    · split at hrun
      · split at hrun
        · split at hrun
          · split at hrun
            · simp at hrun
            · obtain ⟨hs', htr⟩ := ingest_and_record_error _ _ _ _ _ _ _ _ _ hrun
              refine ⟨by rw [hs', delete_old_embeddings_metadata_eq],
                by simp [htr]⟩
          · obtain ⟨hs', htr⟩ := ingest_and_record_error _ _ _ _ _ _ _ _ _ hrun
            exact ⟨by rw [hs'], by simp [htr]⟩
        · obtain ⟨hs', htr⟩ := ingest_and_record_error _ _ _ _ _ _ _ _ _ hrun
          exact ⟨by rw [hs'], by simp [htr]⟩
      · simp only [RunResult.mk.injEq] at hrun
        exact ⟨by rw [← hrun.2.1], by simp [← hrun.2.2]⟩

/-- C3 witness: on the concrete successful insert of `a.pdf`, the trace ends
with the ledger write right after the chunk insertion; and on the concrete
run whose extraction step fails, the ledger is unchanged and no ledger write
happened. -/
theorem c3_witness :
    (∃ dels fp n mid,
      [Event.insertChunks (hC [1]) 1, Event.addMetadata "meta_1"]
        = dels ++ [Event.insertChunks fp n, Event.addMetadata mid] ∧
      ∀ e ∈ dels, ∃ ch, e = Event.deleteChunks ch) ∧
    (s0.metadata = s0.metadata ∧
     ∀ mid, Event.addMetadata mid ∉ ([] : List Event)) :=
  ⟨(c3_vector_mutation_precedes_ledger_write hC extractC fsA s0 "a.pdf").1
      Outcome.Inserted runA.state
      [Event.insertChunks (hC [1]) 1, Event.addMetadata "meta_1"]
      (by decide) (by decide),
   (c3_vector_mutation_precedes_ledger_write hC extractFail fsA s0 "a.pdf").2
      (.extractionFailed "a.pdf") s0 [] (by decide)⟩

/-- Function `_check_duplicate` finds nothing when no ledger record carries the
path. -/
theorem check_duplicate_eq_none (s : PState) (p : String)
    (hp : ∀ e ∈ s.metadata, e.metadata.file_path ≠ p) :
    _check_duplicate s p = none := by
  unfold _check_duplicate
  rw [List.filter_eq_nil_iff.mpr (fun e he => by simp [hp e he])]
  rfl

/-- A reconcile of a path no ledger record mentions runs the INSERT branch:
it returns `Inserted`, appends the extracted chunks tagged with the content's
fingerprint, and appends the `meta_{fingerprint}` ledger record. -/
theorem process_pdf_fresh_insert (h : Bytes → String)
    (extract : String → Option (List String)) (fs : String → Option Bytes)
    (s : PState) (p : String) (content : Bytes) (texts : List String)
    (hfs : fs p = some content)
    (hpdf : pyEndsWith (pyLower p) ".pdf" = true)
    (hnodup : ∀ e ∈ s.metadata, e.metadata.file_path ≠ p)
    (hext : extract p = some texts) :
    process_pdf h extract fs s p =
      ⟨.ok .Inserted,
       ⟨s.embeddings ++ texts.map (fun t => ⟨t, h content, p⟩),
        s.metadata ++ [⟨"meta_" ++ h content, _get_file_metadata h p content⟩]⟩,
       [.insertChunks (h content) texts.length,
        .addMetadata ("meta_" ++ h content)]⟩ := by
  unfold process_pdf
  rw [hfs]
  simp only [hpdf, if_true]
  rw [check_duplicate_eq_none s p hnodup]
  unfold ingest_and_record
  rw [hext]
  simp [_store_metadata, _get_file_metadata]

/-- After appending one fresh record for path `p` to a ledger that had none,
`_check_duplicate` finds exactly that record's id. -/
theorem check_duplicate_append_fresh (s : PState) (p : String)
    (cs : List EmbeddedChunk) (entry : MetaEntry)
    (hp : ∀ e ∈ s.metadata, e.metadata.file_path ≠ p)
    (hpath : entry.metadata.file_path = p) :
    _check_duplicate ⟨s.embeddings ++ cs, s.metadata ++ [entry]⟩ p
      = some entry.id := by
  unfold _check_duplicate
  have hf : s.metadata.filter (fun e => e.metadata.file_path == p) = [] :=
    List.filter_eq_nil_iff.mpr (fun e he => by simp [hp e he])
  simp only [List.filter_append, hf, List.nil_append]
  simp [hpath]

/-- After appending a record with a fresh id, `getById` on that id finds the
appended record. -/
theorem getById_append_fresh (s : PState) (cs : List EmbeddedChunk)
    (entry : MetaEntry)
    (hid : ∀ e ∈ s.metadata, e.id ≠ entry.id) :
    getById ⟨s.embeddings ++ cs, s.metadata ++ [entry]⟩ entry.id
      = some entry := by
  unfold getById
  have hf : s.metadata.filter (fun e => e.id == entry.id) = [] :=
    List.filter_eq_nil_iff.mpr (fun e he => by simp [hid e he])
  simp only [List.filter_append, hf, List.nil_append]
  simp

/-- When the first ledger record found for the path carries the incoming
content's fingerprint, `process_pdf` takes the SKIP branch: `Skipped`, state
untouched, no mutation event. -/
theorem process_pdf_skip_of_same_hash (h : Bytes → String)
    (extract : String → Option (List String)) (fs : String → Option Bytes)
    (s : PState) (p : String) (content : Bytes) (entry : MetaEntry)
    (hfs : fs p = some content)
    (hpdf : pyEndsWith (pyLower p) ".pdf" = true)
    (hfirst : _check_duplicate s p = some entry.id)
    (hget : getById s entry.id = some entry)
    (hhash : entry.metadata.content_hash = h content) :
    process_pdf h extract fs s p = ⟨.ok .Skipped, s, []⟩ := by
  unfold process_pdf
  rw [hfs]
  simp only [hpdf, if_true]
  simp only [hfirst, hget]
  simp [_get_file_metadata, hhash]

/-- C2: reconciling `(identity, bytes)` twice from any state whose ledger has
no record for the identity, no record colliding with the content's metadata
id, and no chunk carrying the content's fingerprint: the first call returns
`Inserted`; the second returns `Skipped`, changes neither collection and
performs no mutation (empty trace); and the chunks carrying the fingerprint
afterwards are exactly the one inserted set — nonempty when extraction
produced chunks. -/
theorem c2_insert_then_skip (h : Bytes → String)
    (extract : String → Option (List String)) (fs : String → Option Bytes)
    (s : PState) (p : String) (content : Bytes) (texts : List String)
    (hfs : fs p = some content)
    (hpdf : pyEndsWith (pyLower p) ".pdf" = true)
    (hext : extract p = some texts)
    (hne : texts ≠ [])
    (hnodup : ∀ e ∈ s.metadata, e.metadata.file_path ≠ p)
    (hnoid : ∀ e ∈ s.metadata, e.id ≠ "meta_" ++ h content)
    (hnochunk : ∀ c ∈ s.embeddings, c.content_hash ≠ h content) :
    (process_pdf h extract fs s p).result = .ok .Inserted ∧
    (process_pdf h extract fs (process_pdf h extract fs s p).state p).result
      = .ok .Skipped ∧
    (process_pdf h extract fs (process_pdf h extract fs s p).state p).state
      = (process_pdf h extract fs s p).state ∧
    (process_pdf h extract fs (process_pdf h extract fs s p).state p).trace
      = [] ∧
    (process_pdf h extract fs s p).state.embeddings.filter
        (fun c => c.content_hash == h content)
      = texts.map (fun t => ⟨t, h content, p⟩) ∧
    texts.map (fun t => (⟨t, h content, p⟩ : EmbeddedChunk)) ≠ [] := by
  have hrun1 := process_pdf_fresh_insert h extract fs s p content texts
    hfs hpdf hnodup hext
  have hdup := check_duplicate_append_fresh s p
    (texts.map (fun t => ⟨t, h content, p⟩))
    ⟨"meta_" ++ h content, _get_file_metadata h p content⟩
    hnodup (by simp [_get_file_metadata])
  have hget := getById_append_fresh s
    (texts.map (fun t => ⟨t, h content, p⟩))
    ⟨"meta_" ++ h content, _get_file_metadata h p content⟩
    (by intro e he; simpa using hnoid e he)
  have hrun2 := process_pdf_skip_of_same_hash h extract fs
    ⟨s.embeddings ++ texts.map (fun t => ⟨t, h content, p⟩),
     s.metadata ++ [⟨"meta_" ++ h content, _get_file_metadata h p content⟩]⟩
    p content ⟨"meta_" ++ h content, _get_file_metadata h p content⟩
    hfs hpdf hdup hget (by simp [_get_file_metadata])
  refine ⟨by rw [hrun1], ?_, ?_, ?_, ?_, by simpa using hne⟩
  · rw [hrun1]
    show (process_pdf h extract fs
      ⟨s.embeddings ++ texts.map (fun t => ⟨t, h content, p⟩),
       s.metadata ++ [⟨"meta_" ++ h content, _get_file_metadata h p content⟩]⟩
      p).result = .ok .Skipped
    rw [hrun2]
  · rw [hrun1]
    show (process_pdf h extract fs
      ⟨s.embeddings ++ texts.map (fun t => ⟨t, h content, p⟩),
       s.metadata ++ [⟨"meta_" ++ h content, _get_file_metadata h p content⟩]⟩
      p).state =
      ⟨s.embeddings ++ texts.map (fun t => ⟨t, h content, p⟩),
       s.metadata ++ [⟨"meta_" ++ h content, _get_file_metadata h p content⟩]⟩
    rw [hrun2]
  · rw [hrun1]
    show (process_pdf h extract fs
      ⟨s.embeddings ++ texts.map (fun t => ⟨t, h content, p⟩),
       s.metadata ++ [⟨"meta_" ++ h content, _get_file_metadata h p content⟩]⟩
      p).trace = []
    rw [hrun2]
  · rw [hrun1]
    show List.filter (fun c => c.content_hash == h content)
        (s.embeddings ++ texts.map (fun t => ⟨t, h content, p⟩))
      = texts.map (fun t => ⟨t, h content, p⟩)
    have hf : s.embeddings.filter (fun c => c.content_hash == h content)
        = [] :=
      List.filter_eq_nil_iff.mpr (fun c hc => by simp [hnochunk c hc])
    rw [List.filter_append, hf, List.nil_append]
    exact List.filter_eq_self.mpr (fun c hc => by
      obtain ⟨t, -, rfl⟩ := List.mem_map.mp hc
      simp)

/-- C2 witness: from the empty state, ingesting `a.pdf` (content `[1]`) twice
inserts then skips, leaving exactly the one inserted chunk set. -/
theorem c2_insert_then_skip_witness :
    (process_pdf hC extractC fsA s0 "a.pdf").result = .ok .Inserted ∧
    (process_pdf hC extractC fsA
        (process_pdf hC extractC fsA s0 "a.pdf").state "a.pdf").result
      = .ok .Skipped ∧
    (process_pdf hC extractC fsA
        (process_pdf hC extractC fsA s0 "a.pdf").state "a.pdf").state
      = (process_pdf hC extractC fsA s0 "a.pdf").state ∧
    (process_pdf hC extractC fsA
        (process_pdf hC extractC fsA s0 "a.pdf").state "a.pdf").trace
      = [] ∧
    (process_pdf hC extractC fsA s0 "a.pdf").state.embeddings.filter
        (fun c => c.content_hash == hC [1])
      = ["chunk one"].map (fun t => ⟨t, hC [1], "a.pdf"⟩) ∧
    ["chunk one"].map (fun t => (⟨t, hC [1], "a.pdf"⟩ : EmbeddedChunk))
      ≠ [] :=
  c2_insert_then_skip hC extractC fsA s0 "a.pdf" [1] ["chunk one"]
    (by rfl) (by decide) (by rfl) (by decide)
    (by intro e he; simp [s0] at he) (by intro e he; simp [s0] at he)
    (by intro c hc; simp [s0] at hc)

/-- A concrete similarity search: the first `top_k` stored chunks. -/
def selTake : List EmbeddedChunk → String → Int → List EmbeddedChunk :=
  fun l _ k => l.take k.toNat

/-- An empty Chroma database (every collection empty). -/
def db0 : VectorDB := ⟨fun _ => [], fun _ => []⟩

/-- C10: the retrieval paths are wired to the collection `"embeddings"` (API
and MCP alike) while `process_pdf` writes into `"pdf_embeddings"`; one
ingestion therefore leaves the `"embeddings"` collection untouched, and any
chunk stored by the ingestion — any chunk not already in `"embeddings"`
beforehand — is absent from every `internal_search` and MCP
`search_documents` result, for every similarity search `sel` that only
returns stored chunks. -/
theorem c10_ingested_chunks_invisible_to_search (h : Bytes → String)
    (extract : String → Option (List String)) (fs : String → Option Bytes)
    (db : VectorDB) (p q : String) (k : Int)
    (sel : List EmbeddedChunk → String → Int → List EmbeddedChunk)
    (hsel : ∀ l query n, ∀ c ∈ sel l query n, c ∈ l)
    (c : EmbeddedChunk)
    (hstored : c ∈ (process_pdf_sys h extract fs db p).2.chunks
      loader_embeddings_collection)
    (hc : c ∉ db.chunks api_embeddings_collection) :
    api_embeddings_collection = "embeddings" ∧
    mcp_embeddings_collection = "embeddings" ∧
    loader_embeddings_collection = "pdf_embeddings" ∧
    (process_pdf_sys h extract fs db p).2.chunks api_embeddings_collection
      = db.chunks api_embeddings_collection ∧
    c ∉ api_search sel (process_pdf_sys h extract fs db p).2 q k ∧
    c ∉ mcp_search_documents sel (process_pdf_sys h extract fs db p).2 q k := by
  have hpres : (process_pdf_sys h extract fs db p).2.chunks
      api_embeddings_collection = db.chunks api_embeddings_collection := by
    unfold process_pdf_sys applyLoader
    have hne : api_embeddings_collection ≠ loader_embeddings_collection := by
      decide
    simp [hne]
  refine ⟨rfl, rfl, rfl, hpres, ?_, ?_⟩
  · intro hmem
    unfold api_search at hmem
    rw [hpres] at hmem
    exact hc (hsel _ q k c hmem)
  · intro hmem
    unfold mcp_search_documents at hmem
    have hmcp : mcp_embeddings_collection = api_embeddings_collection := rfl
    rw [hmcp, hpres] at hmem
    exact hc (hsel _ q k c hmem)

/-- C10 witness: ingesting `a.pdf` into the empty database stores the chunk
in `pdf_embeddings`, the `embeddings` collection stays empty, and the chunk
appears in no retrieval result. -/
theorem c10_witness :
    api_embeddings_collection = "embeddings" ∧
    mcp_embeddings_collection = "embeddings" ∧
    loader_embeddings_collection = "pdf_embeddings" ∧
    (process_pdf_sys hC extractC fsA db0 "a.pdf").2.chunks
        api_embeddings_collection
      = db0.chunks api_embeddings_collection ∧
    (⟨"chunk one", hC [1], "a.pdf"⟩ : EmbeddedChunk)
      ∉ api_search selTake (process_pdf_sys hC extractC fsA db0 "a.pdf").2
          "q" 3 ∧
    (⟨"chunk one", hC [1], "a.pdf"⟩ : EmbeddedChunk)
      ∉ mcp_search_documents selTake
          (process_pdf_sys hC extractC fsA db0 "a.pdf").2 "q" 3 :=
  c10_ingested_chunks_invisible_to_search hC extractC fsA db0 "a.pdf" "q" 3
    selTake (fun l query n c hc => List.mem_of_mem_take hc)
    ⟨"chunk one", hC [1], "a.pdf"⟩ (by decide) (by decide)

end Vero
